import Mathlib

/-!
Verification development for the suggestion pipeline of `app.py`
(rent-prediction web service with an external generative-text suggestion
endpoint).

The Python source is shallowly embedded:

* strings are `List Char`;
* `str.strip()` is `pyStrip` (ASCII whitespace, which covers every string
  the program manipulates);
* the two `re.sub` calls of `clean_text` are `subThink` (pattern
  `<think>.*?</think>`, case-insensitive, dot-matches-newline) and
  `subTags` (pattern `<.*?>`, dot does not match newline), both implemented
  as the leftmost, non-overlapping, non-greedy scan that `re.sub` performs;
* JSON values are the inductive `Json`; the outcome of `json.loads` on a
  text is abstracted as an `Option Json` (`none` models a parse exception),
  and the orchestrator takes the `loads` function as an explicit parameter;
* `float` conversion of a request field is `pyFloat` / `pyFloatOfString`
  (finite decimals with optional exponent; CPython floats are binary, so a
  rational model is the standard shallow embedding);
* the network call of `call_groq` is driven by a `PostBehavior` oracle
  describing what `requests.post` produced for that attempt: a raised
  transport exception, or a response with a status code and a body;
* exceptions are `Except` values: the outer `try/except` of the handler
  is the final `match`es of `suggest`, and the pair's second component
  counts how many times the Groq client was invoked.
-/

namespace RenderDemo

deriving instance DecidableEq for Except

/-! ## Python string helpers -/

/-- ASCII whitespace as recognised by `str.strip()` / `str.isspace()`
(restricted to the ASCII range, which is all this program produces). -/
def isPySpace (c : Char) : Bool :=
  c = ' ' || c = '\t' || c = '\n' || c = '\r' || c = '\x0b' || c = '\x0c'

/-- Python `text.strip()`: drop leading and trailing whitespace. -/
def pyStrip (cs : List Char) : List Char :=
  ((cs.dropWhile isPySpace).reverse.dropWhile isPySpace).reverse

/-! ## `clean_text` — the sanitizer

`clean_text` applies, in order:
1. `re.sub(r"<think>.*?</think>", "", text, flags=re.S | re.I)`
2. `re.sub(r"<.*?>", "", text)`
3. `.strip()`
with an early return of `""` for falsy (empty) input.
-/

/-- One step of the second pattern `<.*?>`: given the text after a `'<'`,
find the non-greedy closing `'>'`; the dot of the pattern does not match
a newline (no `re.S` flag), so the search fails at a `'\n'`.  Returns the
text after the consumed `'>'`. -/
def findClose : List Char → Option (List Char)
  | [] => none
  | c :: rest => if c = '>' then some rest else if c = '\n' then none else findClose rest

theorem findClose_len : ∀ cs r, findClose cs = some r → r.length < cs.length := by
  intro cs
  induction cs with
  | nil => intro r h; simp [findClose] at h
  | cons c rest ih =>
    intro r h
    simp only [findClose] at h
    split at h
    · cases h; simp
    · split at h
      · cases h
      · have := ih r h; simp; omega

/-- `re.sub(r"<.*?>", "", ·)`: the scan moves left to right; at each `'<'`
that has a closing `'>'` with no intervening newline, the whole span is
removed and scanning resumes after it, exactly as `re.sub` replaces
leftmost non-overlapping non-greedy matches. -/
def subTags (cs : List Char) : List Char :=
  match cs with
  | [] => []
  | c :: rest =>
    if c = '<' then
      match h : findClose rest with
      | some r2 => subTags r2
      | none => c :: subTags rest
    else c :: subTags rest
termination_by cs.length
decreasing_by
  · have := findClose_len rest r2 h; simp; omega
  · simp
  · simp

theorem subTags_nil : subTags [] = [] := by
  rw [subTags.eq_def]

theorem subTags_close (rest r2 : List Char) (hfc : findClose rest = some r2) :
    subTags ('<' :: rest) = subTags r2 := by
  rw [subTags.eq_2, if_pos rfl, hfc]

theorem subTags_noclose (rest : List Char) (hfc : findClose rest = none) :
    subTags ('<' :: rest) = '<' :: subTags rest := by
  rw [subTags.eq_2, if_pos rfl, hfc]

theorem subTags_other (c : Char) (rest : List Char) (hc : ¬ c = '<') :
    subTags (c :: rest) = c :: subTags rest := by
  rw [subTags.eq_2, if_neg hc]

/-- The opening marker `<think>` of the first pattern, case-insensitively
(`re.I`; the `<`, `>` delimiters are not letters and match exactly).
On success, returns the text following the marker. -/
def isOpenThink : List Char → Option (List Char)
  | c0 :: t :: h :: i :: n :: k :: c6 :: rest =>
    if c0 = '<' ∧ c6 = '>' ∧ (t = 't' ∨ t = 'T') ∧ (h = 'h' ∨ h = 'H') ∧
       (i = 'i' ∨ i = 'I') ∧ (n = 'n' ∨ n = 'N') ∧ (k = 'k' ∨ k = 'K')
    then some rest else none
  | _ => none

/-- The closing marker `</think>`, case-insensitively.  On success, returns
the text following the marker. -/
def isCloseThink : List Char → Option (List Char)
  | c0 :: c1 :: t :: h :: i :: n :: k :: c7 :: rest =>
    if c0 = '<' ∧ c1 = '/' ∧ c7 = '>' ∧ (t = 't' ∨ t = 'T') ∧ (h = 'h' ∨ h = 'H') ∧
       (i = 'i' ∨ i = 'I') ∧ (n = 'n' ∨ n = 'N') ∧ (k = 'k' ∨ k = 'K')
    then some rest else none
  | _ => none

/-- Non-greedy search for the first `</think>`: the `.*?` of the pattern is
minimal, so the span ends at the earliest closing marker.  Returns the text
after that marker. -/
def dropAfterClose : List Char → Option (List Char)
  | [] => none
  | c :: rest =>
    match isCloseThink (c :: rest) with
    | some r => some r
    | none => dropAfterClose rest

theorem isOpenThink_shape {cs after : List Char} (h : isOpenThink cs = some after) :
    ∃ t h' i n k, cs = '<' :: t :: h' :: i :: n :: k :: '>' :: after ∧
      (t = 't' ∨ t = 'T') ∧ (h' = 'h' ∨ h' = 'H') ∧ (i = 'i' ∨ i = 'I') ∧
      (n = 'n' ∨ n = 'N') ∧ (k = 'k' ∨ k = 'K') := by
  unfold isOpenThink at h
  split at h
  · split at h
    · cases h
      rename_i cond
      obtain ⟨rfl, rfl, cond⟩ := cond
      exact ⟨_, _, _, _, _, rfl, cond⟩
    · cases h
  · cases h

theorem isCloseThink_len {cs r : List Char} (h : isCloseThink cs = some r) :
    r.length + 8 = cs.length := by
  unfold isCloseThink at h
  split at h
  · split at h
    · cases h; simp
    · cases h
  · cases h

theorem dropAfterClose_len : ∀ cs r, dropAfterClose cs = some r → r.length < cs.length := by
  intro cs
  induction cs with
  | nil => intro r h; simp [dropAfterClose] at h
  | cons c rest ih =>
    intro r h
    simp only [dropAfterClose] at h
    split at h
    · cases h
      have := isCloseThink_len (by assumption)
      simp at this ⊢
      omega
    · have := ih r h; simp; omega

theorem isOpenThink_len {cs after : List Char} (h : isOpenThink cs = some after) :
    after.length + 7 = cs.length := by
  obtain ⟨t, h', i, n, k, rfl, -⟩ := isOpenThink_shape h
  simp

/-- `re.sub(r"<think>.*?</think>", "", ·, flags=re.S | re.I)`: leftmost
match at each case-insensitive `<think>` that is followed by a
case-insensitive `</think>` (the dot matches newlines under `re.S`);
the whole span including both markers is removed and scanning resumes
after it. -/
def subThink (cs : List Char) : List Char :=
  match cs with
  | [] => []
  | c :: rest =>
    match h1 : isOpenThink (c :: rest) with
    | some after =>
      match h2 : dropAfterClose after with
      | some r2 => subThink r2
      | none => c :: subThink rest
    | none => c :: subThink rest
termination_by cs.length
decreasing_by
  · have ha := isOpenThink_len h1
    have hb := dropAfterClose_len after r2 h2
    simp at ha ⊢
    omega
  · simp
  · simp

theorem subThink_nil : subThink [] = [] := by
  rw [subThink.eq_def]

theorem subThink_found (c : Char) (rest after r2 : List Char)
    (h1 : isOpenThink (c :: rest) = some after) (h2 : dropAfterClose after = some r2) :
    subThink (c :: rest) = subThink r2 := by
  rw [subThink.eq_2, h1]
  dsimp only
  rw [h2]

theorem subThink_unclosed (c : Char) (rest after : List Char)
    (h1 : isOpenThink (c :: rest) = some after) (h2 : dropAfterClose after = none) :
    subThink (c :: rest) = c :: subThink rest := by
  rw [subThink.eq_2, h1]
  dsimp only
  rw [h2]

theorem subThink_other (c : Char) (rest : List Char)
    (h1 : isOpenThink (c :: rest) = none) :
    subThink (c :: rest) = c :: subThink rest := by
  rw [subThink.eq_2, h1]

/-- `clean_text` from `app.py`: early-return `""` on falsy input, remove
`<think>…</think>` spans, remove remaining `<…>` tags, strip. -/
def clean_text (cs : List Char) : List Char :=
  if cs.isEmpty then [] else pyStrip (subTags (subThink cs))

/-! ## Idempotence infrastructure

`hasTag cs` says some `'<'` in `cs` is followed by a `'>'` with no
intervening newline — i.e. the pattern `<.*?>` still matches somewhere.
The key invariants: `subTags` output never has a tag; a tag-free text is a
fixed point of both substitutions (a `<think>` marker is itself a tag);
and stripping or otherwise taking sublists cannot create a tag. -/

def hasTag : List Char → Bool
  | [] => false
  | c :: rest => (c = '<' && (findClose rest).isSome) || hasTag rest

theorem findClose_append {u v r : List Char} (h : findClose u = some r) :
    findClose (u ++ v) = some (r ++ v) := by
  induction u with
  | nil => simp [findClose] at h
  | cons c rest ih =>
    simp only [findClose, List.cons_append] at h ⊢
    split at h
    · cases h; simp_all
    · split at h
      · cases h
      · simp_all [ih h]

theorem hasTag_append_left {u v : List Char} (h : hasTag (u ++ v) = false) :
    hasTag u = false := by
  induction u with
  | nil => simp [hasTag]
  | cons c rest ih =>
    simp only [hasTag, List.cons_append, Bool.or_eq_false_iff,
      Bool.and_eq_false_iff] at h ⊢
    obtain ⟨h1, h2⟩ := h
    refine ⟨?_, ih h2⟩
    rcases h1 with h1 | h1
    · exact Or.inl h1
    · right
      cases hu : findClose rest with
      | none => simp
      | some r =>
        exfalso
        simp only [List.append_eq] at h1
        rw [findClose_append hu] at h1
        simp at h1

theorem hasTag_append_right {u v : List Char} (h : hasTag (u ++ v) = false) :
    hasTag v = false := by
  induction u with
  | nil => simpa using h
  | cons c rest ih =>
    simp only [hasTag, List.cons_append, Bool.or_eq_false_iff] at h
    exact ih h.2

theorem findClose_none_subTags (cs : List Char) :
    findClose cs = none → findClose (subTags cs) = none := by
  induction cs using subTags.induct with
  | case1 => intro h; simpa [subTags_nil] using h
  | case2 rest r2 hfc ih =>
    intro h
    simp [findClose, hfc] at h
  | case3 rest hfc ih =>
    intro h
    simp only [findClose] at h
    rw [subTags_noclose rest hfc]
    simp only [findClose]
    simp at h ⊢
    exact ih h
  | case4 c rest hc ih =>
    intro h
    rw [subTags_other c rest hc]
    simp only [findClose] at h ⊢
    by_cases hgt : c = '>'
    · simp [hgt] at h
    · simp only [if_neg hgt] at h ⊢
      by_cases hnl : c = '\n'
      · simp [hnl]
      · simp only [if_neg hnl] at h ⊢
        exact ih h

theorem hasTag_subTags (cs : List Char) : hasTag (subTags cs) = false := by
  induction cs using subTags.induct with
  | case1 => simp [subTags_nil, hasTag]
  | case2 rest r2 hfc ih => rwa [subTags_close rest r2 hfc]
  | case3 rest hfc ih =>
    rw [subTags_noclose rest hfc]
    simp only [hasTag, Bool.or_eq_false_iff, Bool.and_eq_false_iff]
    exact ⟨Or.inr (by simp [findClose_none_subTags rest hfc]), ih⟩
  | case4 c rest hc ih =>
    rw [subTags_other c rest hc]
    simp [hasTag, hc, ih]

theorem subTags_fixed {cs : List Char} (h : hasTag cs = false) : subTags cs = cs := by
  induction cs with
  | nil => exact subTags_nil
  | cons c rest ih =>
    simp only [hasTag, Bool.or_eq_false_iff, Bool.and_eq_false_iff] at h
    obtain ⟨h1, h2⟩ := h
    by_cases hc : c = '<'
    · subst hc
      rcases h1 with h1 | h1
      · simp at h1
      · cases hfc : findClose rest with
        | none => rw [subTags_noclose rest hfc, ih h2]
        | some r => rw [hfc] at h1; simp at h1
    · rw [subTags_other c rest hc, ih h2]

theorem subThink_fixed {cs : List Char} (h : hasTag cs = false) : subThink cs = cs := by
  induction cs with
  | nil => exact subThink_nil
  | cons c rest ih =>
    cases hop : isOpenThink (c :: rest) with
    | some after =>
      exfalso
      obtain ⟨t, th, ti, tn, tk, heq, pt, ph, pi, pn, pk⟩ := isOpenThink_shape hop
      rw [heq] at h
      rcases pt with rfl | rfl <;> rcases ph with rfl | rfl <;> rcases pi with rfl | rfl <;>
        rcases pn with rfl | rfl <;> rcases pk with rfl | rfl <;>
          simp [hasTag, findClose] at h
    | none =>
      rw [subThink_other c rest hop]
      simp only [hasTag, Bool.or_eq_false_iff] at h
      rw [ih h.2]

theorem dropWhile_first_false {α : Type} (p : α → Bool) :
    ∀ (l : List α) (x : α) (xs : List α), l.dropWhile p = x :: xs → p x = false := by
  intro l
  induction l with
  | nil => intro x xs h; simp [List.dropWhile] at h
  | cons c rest ih =>
    intro x xs h
    by_cases hc : p c
    · rw [List.dropWhile_cons] at h
      simp only [hc, if_true] at h
      exact ih x xs h
    · rw [List.dropWhile_cons] at h
      simp only [hc, if_false] at h
      cases h
      simpa using hc

theorem dropWhile_idem {α : Type} (p : α → Bool) (l : List α) :
    (l.dropWhile p).dropWhile p = l.dropWhile p := by
  cases hd : l.dropWhile p with
  | nil => simp
  | cons x xs =>
    rw [List.dropWhile_cons, dropWhile_first_false p l x xs hd]
    simp

theorem exists_dropWhile_append {α : Type} (p : α → Bool) (l : List α) :
    ∃ u, l = u ++ l.dropWhile p := by
  induction l with
  | nil => exact ⟨[], rfl⟩
  | cons c rest ih =>
    by_cases hc : p c
    · obtain ⟨u, hu⟩ := ih
      refine ⟨c :: u, ?_⟩
      rw [List.dropWhile_cons]
      simp only [hc, if_true]
      simpa using hu
    · refine ⟨[], ?_⟩
      rw [List.dropWhile_cons]
      simp [hc]

theorem pyStrip_decomp (cs : List Char) : ∃ u w, cs = u ++ pyStrip cs ++ w := by
  obtain ⟨u1, hu1⟩ := exists_dropWhile_append isPySpace cs
  obtain ⟨u2, hu2⟩ := exists_dropWhile_append isPySpace (cs.dropWhile isPySpace).reverse
  refine ⟨u1, u2.reverse, ?_⟩
  unfold pyStrip
  conv_lhs => rw [hu1]
  rw [List.append_assoc]
  congr 1
  calc cs.dropWhile isPySpace
      = ((cs.dropWhile isPySpace).reverse).reverse := by simp
    _ = (u2 ++ ((cs.dropWhile isPySpace).reverse.dropWhile isPySpace)).reverse := by
          rw [← hu2]
    _ = ((cs.dropWhile isPySpace).reverse.dropWhile isPySpace).reverse ++ u2.reverse := by
          simp

theorem pyStrip_idem (cs : List Char) : pyStrip (pyStrip cs) = pyStrip cs := by
  have hb : pyStrip cs = ((cs.dropWhile isPySpace).reverse.dropWhile isPySpace).reverse := rfl
  have hdrop : (pyStrip cs).dropWhile isPySpace = pyStrip cs := by
    cases hbv : pyStrip cs with
    | nil => simp
    | cons x xs =>
      obtain ⟨u2, hu2⟩ := exists_dropWhile_append isPySpace (cs.dropWhile isPySpace).reverse
      have haeq : cs.dropWhile isPySpace = pyStrip cs ++ u2.reverse := by
        calc cs.dropWhile isPySpace
            = ((cs.dropWhile isPySpace).reverse).reverse := by simp
          _ = (u2 ++ ((cs.dropWhile isPySpace).reverse.dropWhile isPySpace)).reverse := by
                rw [← hu2]
          _ = pyStrip cs ++ u2.reverse := by rw [hb]; simp
      have hax : cs.dropWhile isPySpace = x :: (xs ++ u2.reverse) := by
        rw [haeq, hbv]; simp
      have hx : isPySpace x = false := dropWhile_first_false isPySpace cs x _ hax
      rw [List.dropWhile_cons]
      simp [hx]
  have hrev : (pyStrip cs).reverse.dropWhile isPySpace = (pyStrip cs).reverse := by
    rw [hb]
    simp only [List.reverse_reverse]
    exact dropWhile_idem _ _
  conv_lhs => rw [pyStrip, hdrop, hrev]
  simp

theorem hasTag_pyStrip {cs : List Char} (h : hasTag cs = false) :
    hasTag (pyStrip cs) = false := by
  obtain ⟨u, w, hc⟩ := pyStrip_decomp cs
  rw [hc, List.append_assoc] at h
  exact hasTag_append_left (hasTag_append_right h)

/-! ## JSON values and `parse_json_array` — the validator

A Python value as produced by `json.loads`.  The result of `json.loads`
itself on a given text is modelled as an `Option Json`: `none` is a parse
exception (caught by the `except` of `parse_json_array`). -/

inductive Json where
  | null : Json
  | bool : Bool → Json
  | num : ℚ → Json
  | str : List Char → Json
  | arr : List Json → Json
  | obj : List (List Char × Json) → Json

/-- `isinstance(x, str)`. -/
def Json.isStr : Json → Bool
  | .str _ => true
  | _ => false

/-- The payload of a string value (only used under an `isStr` guard, as the
comprehension of `parse_json_array` only runs when `all(isinstance(x, str))`
holds). -/
def Json.asStr : Json → List Char
  | .str s => s
  | _ => []

/-- Python dict lookup `d.get(k, default)` without the default: the fields
of a `json.loads` dict have unique keys, so the first match is the value. -/
def jGet (fields : List (List Char × Json)) (k : List Char) : Option Json :=
  match fields with
  | [] => none
  | (k', v) :: rest => if k' = k then some v else jGet rest k

/-- `parse_json_array` from `app.py`, with the outcome of `json.loads`
abstracted as the `Option Json` argument: on a list whose elements are all
strings it returns `[x.strip() for x in parsed if x.strip()]`; any other
value, and a parse exception, yield `None`. -/
def parse_json_array (j : Option Json) : Option (List (List Char)) :=
  match j with
  | some (Json.arr xs) =>
    if xs.all Json.isStr then
      some (((xs.map Json.asStr).map pyStrip).filter (fun s => !s.isEmpty))
    else none
  | _ => none

/-- Truthiness of the Python value `parsed` at the `if not parsed:` /
`if parsed:` checks of the handler: `None` and the empty list are falsy. -/
def parsedTruthy : Option (List (List Char)) → Bool
  | some (_ :: _) => true
  | _ => false

/-- The spec's §4.4 validator error taxonomy. -/
inductive ValidationError where
  | NotAList : ValidationError
  | NonStringElement : ValidationError
  | Empty : ValidationError
deriving DecidableEq

/-- Modelled from the spec §4.4 (`ArrayValidator`), for comparison with the
source's `parse_json_array`: strict parse as a list (`NotAList` otherwise,
including parse failures), all elements strings (`NonStringElement`), trim
and drop empties (`Empty` if none remain), else the trimmed
order-preserved sequence. -/
def validateSpec (j : Option Json) : Except ValidationError (List (List Char)) :=
  match j with
  | some (Json.arr xs) =>
    if xs.all Json.isStr then
      let ts := ((xs.map Json.asStr).map pyStrip).filter (fun s => !s.isEmpty)
      if ts.isEmpty then .error .Empty else .ok ts
    else .error .NonStringElement
  | some _ => .error .NotAList
  | none => .error .NotAList

theorem parse_json_array_mem {j : Option Json} {l : List (List Char)}
    (h : parse_json_array j = some l) :
    ∀ s ∈ l, s ≠ [] ∧ pyStrip s = s := by
  unfold parse_json_array at h
  split at h
  · split at h
    · cases h
      intro s hs
      simp only [List.mem_filter, List.mem_map] at hs
      obtain ⟨⟨x, -, rfl⟩, hne⟩ := hs
      refine ⟨?_, pyStrip_idem x⟩
      simpa [List.isEmpty_iff] using hne
    · cases h
  · cases h

/-! ## The request price — `float(data.get("price", 0) or 0)` -/

/-- Python truthiness of a JSON-decoded value. -/
def jFalsy : Json → Bool
  | .null => true
  | .bool b => !b
  | .num q => q = 0
  | .str s => s.isEmpty
  | .arr xs => xs.isEmpty
  | .obj fs => fs.isEmpty

/-- `data = request.json or {}`: a missing body and a falsy decoded value
both become the empty dict. -/
def dataOf : Option Json → Json
  | none => Json.obj []
  | some d => if jFalsy d then Json.obj [] else d

def digitVal (c : Char) : Option ℕ :=
  if '0' ≤ c ∧ c ≤ '9' then some (c.toNat - 48) else none

def takeDigits : List Char → (List ℕ × List Char)
  | [] => ([], [])
  | c :: rest =>
    match digitVal c with
    | some d =>
      let p := takeDigits rest
      (d :: p.1, p.2)
    | none => ([], c :: rest)

def natOfDigits (ds : List ℕ) : ℕ := ds.foldl (fun a d => 10 * a + d) 0

/-- Digits of the exponent part; the whole remaining text must be digits. -/
def parseExpDigits (cs : List Char) : Option ℤ :=
  let p := takeDigits cs
  if p.1.isEmpty then none else if p.2.isEmpty then some (natOfDigits p.1 : ℤ) else none

def parseExpTail : List Char → Option ℤ
  | '+' :: r => parseExpDigits r
  | '-' :: r => (parseExpDigits r).map (fun n => -n)
  | r => parseExpDigits r

/-- `digits [. digits]` with at least one digit; returns the value and the
unconsumed remainder. -/
def parseMantissa (cs : List Char) : Option (ℚ × List Char) :=
  let p1 := takeDigits cs
  match p1.2 with
  | '.' :: r2 =>
    let p2 := takeDigits r2
    if p1.1.isEmpty && p2.1.isEmpty then none
    else some ((natOfDigits p1.1 : ℚ) + (natOfDigits p2.1 : ℚ) / (10 : ℚ) ^ p2.1.length, p2.2)
  | _ => if p1.1.isEmpty then none else some ((natOfDigits p1.1 : ℚ), p1.2)

def parseUnsignedFloat (cs : List Char) : Option ℚ :=
  match parseMantissa cs with
  | none => none
  | some (m, rest) =>
    match rest with
    | [] => some m
    | c :: r =>
      if c = 'e' ∨ c = 'E' then
        match parseExpTail r with
        | some e => some (m * (10 : ℚ) ^ e)
        | none => none
      else none

/-- Python `float(s)` for a string, embedded over the rationals: optional
surrounding whitespace and sign, decimal digits with optional fraction and
exponent.  (The special non-finite spellings `inf`/`nan`, and digit
underscores, are outside the rational model; no string this development
evaluates uses them.)  Failure models the `ValueError` that `float` raises,
whose message quotes the original string. -/
def pyFloatOfString (s : List Char) : Except (List Char) ℚ :=
  let core : Option ℚ :=
    match pyStrip s with
    | '+' :: r => parseUnsignedFloat r
    | '-' :: r => (parseUnsignedFloat r).map Neg.neg
    | r => parseUnsignedFloat r
  match core with
  | some q => .ok q
  | none => .error ("could not convert string to float: ".toList ++ s)

/-- `float(data.get("price", 0) or 0)` from the handler.  A missing key
defaults to `0`; a falsy value is replaced by `0` by the `or`; `float` then
succeeds on numbers, booleans and numeric strings and raises (models as
`.error`) on anything else — including any `.get` failure when the decoded
body is not a dict. -/
def getPrice (data : Json) : Except (List Char) ℚ :=
  match data with
  | .obj fields =>
    let v := (jGet fields "price".toList).getD (Json.num 0)
    let v2 := if jFalsy v then Json.num 0 else v
    match v2 with
    | .num q => .ok q
    | .bool b => .ok (if b then 1 else 0)
    | .str s => pyFloatOfString s
    | .arr _ => .error "TypeError: float() argument must be a string or a real number".toList
    | .obj _ => .error "TypeError: float() argument must be a string or a real number".toList
    | .null => .error "TypeError: float() argument must be a string or a real number".toList
  | _ => .error "AttributeError: object has no attribute get".toList

/-! ## Prompt payloads -/

/-- Digits of a natural number. -/
def natDecimal (n : ℕ) : List Char := (Nat.repr n).toList

/-- Insert a comma after every third digit of a reversed digit list. -/
def group3 : List Char → List Char
  | a :: b :: c :: d :: rest => a :: b :: c :: ',' :: group3 (d :: rest)
  | l => l

/-- The `,.2f` format specifier applied to the price: sign, comma-grouped
integer part, exactly two fraction digits (decimal rounding of the
rational; CPython formats the nearest binary double, which agrees on the
values this development evaluates). -/
def formatMoney (q : ℚ) : List Char :=
  let cents : ℤ := round (|q| * 100)
  let intPart := (group3 (natDecimal (cents / 100).toNat).reverse).reverse
  let fr := (cents % 100).toNat
  let frac := if fr < 10 then ['0'] ++ natDecimal fr else natDecimal fr
  (if q < 0 then ['-'] else []) ++ intPart ++ '.' :: frac

structure Payload where
  model : List Char
  messages : List (List Char × List Char)
  max_tokens : ℕ
  temperature : ℚ
deriving DecidableEq

def user_prompt (price : ℚ) : List Char :=
  "Monthly rent budget: ₹".toList ++ formatMoney price ++
  (".\n\nFind 3–5 **realistic and unique luxury rental properties** within this budget.\n" ++
   "Search globally — India, Dubai, Singapore, London, New York, etc.\n" ++
   "Each suggestion must include **Property Name — Area, City, Country**.\n" ++
   "Avoid repeating any known names like Lodha, DLF, Prestige, etc.\n" ++
   "Output only a JSON array of strings. Example:\n" ++
   "[\"The Address Residence — Downtown, Dubai, UAE\", \"Vasant Vihar Villas — New Delhi, India\"]").toList

/-- The attempt-1 payload (`payload` in the handler); the model name is the
startup configuration value `GROQ_MODEL`, passed explicitly. -/
def payload (model : List Char) (price : ℚ) : Payload where
  model := model
  messages :=
    [("system".toList,
      "You are a global real estate AI assistant that outputs only JSON arrays of property names.".toList),
     ("user".toList, user_prompt price)]
  max_tokens := 280
  temperature := 0.8

/-- The attempt-2 payload (`payload_retry` in the handler).  `price` is in
scope in the source (the surrounding closure) but does not occur in the
payload. -/
def payload_retry (model : List Char) (price : ℚ) : Payload where
  model := model
  messages :=
    [("system".toList, "Return only valid JSON arrays of global property names.".toList),
     ("user".toList,
      ("Retry and return 3–5 unique global properties as a valid JSON array of strings. " ++
       "Do not include explanations or text.").toList)]
  max_tokens := 250
  temperature := 0.85

/-! ## `call_groq` and the orchestrator -/

/-- What `requests.post` did on one attempt: raised a transport exception,
or produced a response with a status code and a body (whose own JSON
decoding may fail, modelled by the inner `Except`). -/
inductive PostBehavior where
  | raises : List Char → PostBehavior
  | returns : ℕ → Except (List Char) Json → PostBehavior

/-- Substring test, for Python `"choices" in j` when `j` is a string. -/
def hasSub (pat : List Char) : List Char → Bool
  | [] => pat.isEmpty
  | c :: rest => List.isPrefixOf pat (c :: rest) || hasSub pat rest

/-- Membership of a string among list elements, for Python `"choices" in j`
when `j` is a list (`==` against each element is only true for an equal
string). -/
def jMemStr (s : List Char) (xs : List Json) : Bool :=
  xs.any (fun x => match x with | .str t => t = s | _ => false)

/-- The body of `call_groq` after the status check:
`if "choices" in j and len(j["choices"]) > 0:` then
`j["choices"][0].get("message", {}).get("content", "")` stripped, else
`""`.  Python attribute/index errors on ill-shaped envelopes are `.error`
values (they propagate to the outer handler like any exception). -/
def extractContent (j : Json) : Except (List Char) (List Char) :=
  match j with
  | .obj fields =>
    match jGet fields "choices".toList with
    | none => .ok []
    | some v =>
      match v with
      | .arr [] => .ok []
      | .str [] => .ok []
      | .obj [] => .ok []
      | .arr (c0 :: _) =>
        match c0 with
        | .obj f0 =>
          match (jGet f0 "message".toList).getD (Json.obj []) with
          | .obj f1 =>
            match (jGet f1 "content".toList).getD (Json.str []) with
            | .str s => .ok (pyStrip s)
            | _ => .error "AttributeError: object has no attribute strip".toList
          | _ => .error "AttributeError: object has no attribute get".toList
        | _ => .error "AttributeError: object has no attribute get".toList
      | .str (_ :: _) => .error "AttributeError: object has no attribute get".toList
      | .obj (_ :: _) => .error "KeyError: 0".toList
      | _ => .error "TypeError: object has no len()".toList
  | .arr xs =>
    if jMemStr "choices".toList xs
    then .error "TypeError: list indices must be integers".toList else .ok []
  | .str s =>
    if hasSub "choices".toList s
    then .error "TypeError: string indices must be integers".toList else .ok []
  | _ => .error "TypeError: argument is not iterable".toList

/-- `call_groq` from the handler: a transport exception propagates; a
non-200 status raises `Exception(f"Groq API returned {status}")`; on 200
the body is decoded and the first message content extracted.  The payload
is sent over the wire and does not influence what the network gives back,
which is the `PostBehavior` oracle. -/
def call_groq (pl : Payload) (b : PostBehavior) : Except (List Char) (List Char) :=
  match b with
  | .raises m => .error m
  | .returns st body =>
    if st = 200 then
      match body with
      | .error m => .error m
      | .ok j => extractContent j
    else .error ("Groq API returned ".toList ++ natDecimal st)

/-- The four ways the `/suggest` handler can answer. -/
inductive SuggestOutcome where
  | missingKey : SuggestOutcome
  | success : List (List Char) → SuggestOutcome
  | fallback : SuggestOutcome
  | error : List Char → SuggestOutcome
deriving DecidableEq

/-- The `/suggest` handler.  `loads` is `json.loads`; `req` is
`request.json`; `b1`, `b2` are what the network does on the first and
second `requests.post`.  The second component counts Groq invocations.
The `time.sleep(0.5)` before the retry is a pure delay with no
data effect.  Every `except`-caught exception is an `.error` outcome —
the handler answers `jsonify({"suggestion": [f"Error: {e}"]})`. -/
def suggest (model key : List Char) (loads : List Char → Option Json)
    (req : Option Json) (b1 b2 : PostBehavior) : SuggestOutcome × ℕ :=
  match getPrice (dataOf req) with
  | .error e => (.error e, 0)
  | .ok price =>
    if key.isEmpty then (.missingKey, 0)
    else
      match call_groq (payload model price) b1 with
      | .error e => (.error e, 1)
      | .ok raw =>
        match parse_json_array (loads (clean_text raw)) with
        | some (x :: xs) => (.success (x :: xs), 1)
        | _ =>
          match call_groq (payload_retry model price) b2 with
          | .error e => (.error e, 2)
          | .ok raw2 =>
            match parse_json_array (loads (clean_text raw2)) with
            | some (y :: ys) => (.success (y :: ys), 2)
            | _ => (.fallback, 2)

/-- The list under the `"suggestion"` key of the HTTP response for each
outcome, exactly as each `return jsonify(...)` writes it. -/
def respList : SuggestOutcome → List (List Char)
  | .missingKey => ["Groq API key not found. Check Render environment.".toList]
  | .success l => l
  | .fallback => ["Unable to fetch live property suggestions. Please retry.".toList]
  | .error m => ["Error: ".toList ++ m]

/-- The full JSON response body: every outcome is
`{"suggestion": [...]}`. -/
def suggestResponse (o : SuggestOutcome) : Json :=
  Json.obj [("suggestion".toList, Json.arr ((respList o).map Json.str))]

/-- A concrete `json.loads` stub used to exercise the retry path on
explicit inputs: empty text is unparseable, any other text decodes to
`["ok"]`. -/
def loadsW : List Char → Option Json :=
  fun s => if s.isEmpty then none else some (Json.arr [Json.str ['o', 'k']])

/-- A concrete well-shaped Groq response envelope whose first message
content is `"X"`. -/
def envelopeX : Json :=
  Json.obj [("choices".toList,
    Json.arr [Json.obj [("message".toList,
      Json.obj [("content".toList, Json.str ['X'])])]])]

/-! ## Case analysis of the orchestrator -/

theorem suggest_outcomes (model key : List Char) (loads : List Char → Option Json)
    (req : Option Json) (b1 b2 : PostBehavior) :
    (∃ l, (suggest model key loads req b1 b2).1 = .success l ∧ l ≠ [] ∧
      ∀ s ∈ l, s ≠ [] ∧ pyStrip s = s) ∨
    (suggest model key loads req b1 b2).1 = .missingKey ∨
    (suggest model key loads req b1 b2).1 = .fallback ∨
    ∃ e, (suggest model key loads req b1 b2).1 = .error e := by
  unfold suggest
  cases hp : getPrice (dataOf req) with
  | error e =>
    simp only [hp]
    exact Or.inr (Or.inr (Or.inr ⟨e, rfl⟩))
  | ok price =>
    simp only [hp]
    by_cases hk : key.isEmpty
    · simp only [hk, if_true]
      exact Or.inr (Or.inl trivial)
    · simp only [hk, Bool.false_eq_true, if_false]
      cases hc1 : call_groq (payload model price) b1 with
      | error e =>
        simp only [hc1]
        exact Or.inr (Or.inr (Or.inr ⟨e, rfl⟩))
      | ok raw =>
        simp only [hc1]
        cases hpar : parse_json_array (loads (clean_text raw)) with
        | some l =>
          cases l with
          | cons x xs =>
            simp only [hpar]
            exact Or.inl ⟨x :: xs, rfl, by simp, parse_json_array_mem hpar⟩
          | nil =>
            simp only [hpar]
            cases hc2 : call_groq (payload_retry model price) b2 with
            | error e =>
              simp only [hc2]
              exact Or.inr (Or.inr (Or.inr ⟨e, rfl⟩))
            | ok raw2 =>
              simp only [hc2]
              cases hpar2 : parse_json_array (loads (clean_text raw2)) with
              | some l2 =>
                cases l2 with
                | cons y ys =>
                  simp only [hpar2]
                  exact Or.inl ⟨y :: ys, rfl, by simp, parse_json_array_mem hpar2⟩
                | nil =>
                  simp only [hpar2]
                  exact Or.inr (Or.inr (Or.inl trivial))
              | none =>
                simp only [hpar2]
                exact Or.inr (Or.inr (Or.inl trivial))
        | none =>
          simp only [hpar]
          cases hc2 : call_groq (payload_retry model price) b2 with
          | error e =>
            simp only [hc2]
            exact Or.inr (Or.inr (Or.inr ⟨e, rfl⟩))
          | ok raw2 =>
            simp only [hc2]
            cases hpar2 : parse_json_array (loads (clean_text raw2)) with
            | some l2 =>
              cases l2 with
              | cons y ys =>
                simp only [hpar2]
                exact Or.inl ⟨y :: ys, rfl, by simp, parse_json_array_mem hpar2⟩
              | nil =>
                simp only [hpar2]
                exact Or.inr (Or.inr (Or.inl trivial))
            | none =>
              simp only [hpar2]
              exact Or.inr (Or.inr (Or.inl trivial))

/-! ## The claims -/

/-- C1: for every budget (any request body at all), the `/suggest` handler
terminates and its outcome is either a validated suggestion list of length
at least 1 whose elements are non-empty and trimmed, or one of the failure
outcomes (missing key, fallback, caught error) — never an uncaught
exception: `suggest` is a total function into `SuggestOutcome`. -/
theorem C1_suggest_terminates_valid_or_failure (model key : List Char)
    (loads : List Char → Option Json) (req : Option Json) (b1 b2 : PostBehavior) :
    (∃ l, (suggest model key loads req b1 b2).1 = .success l ∧ l ≠ [] ∧
      ∀ s ∈ l, s ≠ [] ∧ pyStrip s = s) ∨
    (suggest model key loads req b1 b2).1 = .missingKey ∨
    (suggest model key loads req b1 b2).1 = .fallback ∨
    ∃ e, (suggest model key loads req b1 b2).1 = .error e :=
  suggest_outcomes model key loads req b1 b2

/-- C2, counterexample: when attempt 1 gets a non-success status (500), no
retry happens (one invocation), but the caller-visible message is
`"Error: Groq API returned 500"` — the raw exception text — and not the
fixed fallback placeholder, contrary to the claim. -/
theorem C2_transport_error_message_counterexample :
    (suggest "m".toList "k".toList (fun _ => none) none
        (.returns 500 (.ok Json.null)) (.returns 500 (.ok Json.null)))
      = (.error ("Groq API returned 500".toList), 1) ∧
    respList (suggest "m".toList "k".toList (fun _ => none) none
        (.returns 500 (.ok Json.null)) (.returns 500 (.ok Json.null))).1
      ≠ respList .fallback := by
  constructor
  · rfl
  · decide

/-- C2, amended: if the client fails on attempt 1 (transport exception or
non-200 status), no second attempt is issued and the handler answers with
one client invocation; the caller-visible result is an error message
embedding the exception text (for a non-200 status,
`"Groq API returned <status>"`), in the same response shape, rather than
the fixed fallback placeholder. -/
theorem C2_transport_failure_not_retried (model key : List Char)
    (loads : List Char → Option Json) (req : Option Json) (b1 b2 : PostBehavior)
    (p : ℚ) (e : List Char)
    (hkey : key.isEmpty = false)
    (hp : getPrice (dataOf req) = .ok p)
    (hfail : call_groq (payload model p) b1 = .error e) :
    suggest model key loads req b1 b2 = (.error e, 1) ∧
    respList (SuggestOutcome.error e) = ["Error: ".toList ++ e] ∧
    (∀ st body, st ≠ 200 →
      call_groq (payload model p) (.returns st body)
        = .error ("Groq API returned ".toList ++ natDecimal st)) := by
  refine ⟨?_, rfl, ?_⟩
  · unfold suggest
    simp only [hp, hkey, Bool.false_eq_true, if_false, hfail]
  · intro st body hst
    unfold call_groq
    simp [hst]

theorem C2_transport_failure_not_retried_witness :
    suggest "m".toList "k".toList (fun _ => none) none
        (.raises "timeout".toList) (.raises "x".toList)
      = (.error "timeout".toList, 1) ∧
    respList (SuggestOutcome.error "timeout".toList)
      = ["Error: ".toList ++ "timeout".toList] ∧
    (∀ st body, st ≠ 200 →
      call_groq (payload "m".toList 0) (.returns st body)
        = .error ("Groq API returned ".toList ++ natDecimal st)) :=
  C2_transport_failure_not_retried "m".toList "k".toList (fun _ => none) none
    (.raises "timeout".toList) (.raises "x".toList) 0 "timeout".toList
    (by decide) (by decide) (by decide)

/-- C3: (a) the client is never invoked more than twice per request;
(b) whether a second invocation happens is decided by attempt 1 alone —
the invocation count does not depend on what the second call would return,
so attempt 2 is only issued after attempt 1's outcome is known;
(c) when attempt 1 returns text that fails shape-validation
(`if not parsed`) and attempt 2 returns text that validates, the handler
makes exactly 2 invocations and succeeds with the validated list. -/
theorem C3_retry_discipline :
    (∀ model key loads req b1 b2,
      (suggest model key loads req b1 b2).2 ≤ 2) ∧
    (∀ model key loads req b1 b2 b2x,
      (suggest model key loads req b1 b2).2 = (suggest model key loads req b1 b2x).2) ∧
    (∀ model key loads req b1 b2 p t1 t2 y ys,
      key.isEmpty = false →
      getPrice (dataOf req) = .ok p →
      call_groq (payload model p) b1 = .ok t1 →
      parsedTruthy (parse_json_array (loads (clean_text t1))) = false →
      call_groq (payload_retry model p) b2 = .ok t2 →
      parse_json_array (loads (clean_text t2)) = some (y :: ys) →
      suggest model key loads req b1 b2 = (.success (y :: ys), 2)) := by
  refine ⟨?_, ?_, ?_⟩
  · intro model key loads req b1 b2
    unfold suggest
    repeat' split
    all_goals simp
  · intro model key loads req b1 b2 b2x
    unfold suggest
    repeat' split
    all_goals simp_all
  · intro model key loads req b1 b2 p t1 t2 y ys hk hp h1 hft h2 hps
    unfold suggest
    simp only [hp, hk, Bool.false_eq_true, if_false, h1]
    cases hpar : parse_json_array (loads (clean_text t1)) with
    | some l =>
      cases l with
      | cons x xs => rw [hpar] at hft; simp [parsedTruthy] at hft
      | nil => simp only [hpar, h2, hps]
    | none => simp only [hpar, h2, hps]

theorem C3_retry_discipline_witness :
    suggest "m".toList "k".toList loadsW none
        (.returns 200 (.ok (Json.obj []))) (.returns 200 (.ok envelopeX))
      = (.success [['o', 'k']], 2) :=
  C3_retry_discipline.2.2 "m".toList "k".toList loadsW none
    (.returns 200 (.ok (Json.obj []))) (.returns 200 (.ok envelopeX))
    0 [] ['X'] ['o', 'k'] []
    (by decide) (by decide) (by decide) (by decide) (by decide)
    (by simp [loadsW, clean_text, subThink, subTags, findClose, isOpenThink,
      isCloseThink, dropAfterClose, pyStrip, isPySpace, parse_json_array,
      Json.isStr, Json.asStr])

/-- C4: the spec-modelled validator (`validateSpec`, written from §4.4 of
the spec) refines the source's `parse_json_array` exactly: success, with
the same trimmed order-preserved list of any length, exactly when the
source returns a list with at least one element surviving the trim; the
`Empty` failure exactly when the source returns the (falsy) empty list;
`NotAList` / `NonStringElement` exactly when the source returns `None`
(with `NonStringElement` precisely for a decoded list with a non-string
element); plus the spec's four worked examples — an unparseable text and a
non-list value give `NotAList`, `["a", 2, "b"]` gives `NonStringElement`,
`["", "  "]` gives `Empty` and `["  X  "]` succeeds with `["X"]` — and
order preservation and unbounded length on success. -/
theorem C4_validator_refines_parse_json_array (j : Option Json) :
    (validateSpec j =
      match parse_json_array j with
      | some (a :: l) => .ok (a :: l)
      | some [] => .error .Empty
      | none =>
        match j with
        | some (Json.arr _) => .error .NonStringElement
        | _ => .error .NotAList) ∧
    validateSpec none = .error .NotAList ∧
    validateSpec (some (Json.str "not a list".toList)) = .error .NotAList ∧
    validateSpec (some (Json.arr [Json.str ['a'], Json.num 2, Json.str ['b']]))
      = .error .NonStringElement ∧
    validateSpec (some (Json.arr [Json.str [], Json.str [' ', ' ']])) = .error .Empty ∧
    validateSpec (some (Json.arr [Json.str "  X  ".toList])) = .ok ["X".toList] ∧
    parse_json_array (some (Json.arr [Json.str "  X  ".toList])) = some ["X".toList] ∧
    validateSpec (some (Json.arr [Json.str " b ".toList, Json.str "a".toList]))
      = .ok ["b".toList, "a".toList] ∧
    validateSpec (some (Json.arr (List.replicate 6 (Json.str ['a']))))
      = .ok (List.replicate 6 ['a']) := by
  refine ⟨?_, by decide, by decide, by decide, by decide, by decide, by decide,
    by decide, by decide⟩
  rcases j with _ | v
  · simp [validateSpec, parse_json_array]
  · rcases v with _ | b | q | s | xs | fs
    · simp [validateSpec, parse_json_array]
    · simp [validateSpec, parse_json_array]
    · simp [validateSpec, parse_json_array]
    · simp [validateSpec, parse_json_array]
    · by_cases ha : xs.all Json.isStr
      · simp only [validateSpec, parse_json_array, ha, if_true]
        cases hts : ((xs.map Json.asStr).map pyStrip).filter (fun s => !s.isEmpty) with
        | nil => simp [hts]
        | cons a l => simp [hts]
      · simp [validateSpec, parse_json_array, ha]
    · simp [validateSpec, parse_json_array]

/-- C5, counterexample: on the spec's own example
`"A<reasoning>B</reasoning>C"` the sanitizer does not produce `"AC"`:
the `<reasoning>` markers are removed as generic tags but the span content
`B` survives, so the output is `"ABC"`. -/
theorem C5_reasoning_tag_counterexample :
    clean_text "A<reasoning>B</reasoning>C".toList ≠ "AC".toList ∧
    clean_text "A<reasoning>B</reasoning>C".toList = "ABC".toList := by
  have h : clean_text "A<reasoning>B</reasoning>C".toList = "ABC".toList := by
    simp [clean_text, subThink, subTags, findClose, isOpenThink, isCloseThink,
      dropAfterClose, pyStrip, isPySpace]
  exact ⟨by rw [h]; decide, h⟩

/-- C5, amended: the paired reasoning marker the sanitizer removes in full
(content and delimiters, case-insensitively, across newlines) is `<think>`:
`"A<think>B</think>C"` gives `"AC"`, and so does a mixed-case marker
spanning a newline; for any other markup tag such as `<reasoning>` only
the angle-bracketed delimiters are removed and the span content is kept,
so `"A<reasoning>B</reasoning>C"` gives `"ABC"`. -/
theorem C5_sanitizer_removes_think_spans :
    clean_text "A<think>B</think>C".toList = "AC".toList ∧
    clean_text "A<THINK>b\nx</ThInK>C".toList = "AC".toList ∧
    clean_text "A<reasoning>B</reasoning>C".toList = "ABC".toList := by
  refine ⟨?_, ?_, ?_⟩ <;>
    simp [clean_text, subThink, subTags, findClose, isOpenThink, isCloseThink,
      dropAfterClose, pyStrip, isPySpace]

/-- C6: the sanitizer is idempotent — `clean_text (clean_text x) =
clean_text x` for every input.  After one pass no `<`…`>` span (newline-free)
survives, so the second pass's substitutions are the identity and the
second strip strips an already-stripped text. -/
theorem C6_sanitizer_idempotent (cs : List Char) :
    clean_text (clean_text cs) = clean_text cs := by
  by_cases hc : cs.isEmpty
  · have h1 : clean_text cs = [] := by simp [clean_text, hc]
    rw [h1]
    simp [clean_text]
  · have h1 : clean_text cs = pyStrip (subTags (subThink cs)) := by
      simp [clean_text, hc]
    have hT : hasTag (pyStrip (subTags (subThink cs))) = false :=
      hasTag_pyStrip (hasTag_subTags _)
    rw [h1]
    by_cases hy : (pyStrip (subTags (subThink cs))).isEmpty
    · have h2 : pyStrip (subTags (subThink cs)) = [] := by
        simpa [List.isEmpty_iff] using hy
      rw [h2]
      simp [clean_text]
    · rw [clean_text, if_neg (by simpa using hy)]
      rw [subThink_fixed hT, subTags_fixed hT, pyStrip_idem]

/-- C7, counterexample: at budget 0 (and in fact at every budget) the
retry request's creativity parameter is 0.85, strictly higher than attempt
1's 0.8, not strictly lower as the claim states — only the output-length
limit is strictly shorter. -/
theorem C7_retry_temperature_counterexample :
    ¬ ((payload_retry "m".toList 0).temperature
        < (payload "m".toList 0).temperature) ∧
    (payload "m".toList 0).temperature = 0.8 ∧
    (payload_retry "m".toList 0).temperature = 0.85 := by
  refine ⟨by norm_num [payload, payload_retry], rfl, rfl⟩

/-- C7, amended: for every budget the retry request carries a strictly
shorter output-length limit (250 against 280) but a strictly higher
creativity parameter (0.85 against 0.8) than the attempt-1 request. -/
theorem C7_retry_shorter_but_hotter (model : List Char) (price : ℚ) :
    (payload_retry model price).max_tokens < (payload model price).max_tokens ∧
    (payload model price).temperature < (payload_retry model price).temperature := by
  refine ⟨?_, ?_⟩ <;> norm_num [payload, payload_retry]

/-- C8, counterexample: a request whose price is the (truthy, non-numeric)
string `"abc"` is not coerced to 0: `float("abc")` raises, the outer
handler catches it, and the request ends as an error-message response with
zero client invocations — processing does not continue. -/
theorem C8_nonnumeric_price_counterexample :
    suggest "m".toList "k".toList (fun _ => none)
        (some (Json.obj [("price".toList, Json.str "abc".toList)]))
        (.raises "t".toList) (.raises "t".toList)
      = (.error ("could not convert string to float: abc".toList), 0) := by
  decide

/-- C8, amended: a missing `"price"` key, and any falsy value (`null`,
`false`, `0`, `""`, `[]`, an empty object), are coerced to 0 and processing
continues; but a truthy non-numeric value — for example the string
`"abc"` — makes `float` raise, and the handler turns the request into an
error-message response before any client invocation, instead of
continuing with 0. -/
theorem C8_price_coercion :
    (∀ fields, jGet fields "price".toList = none →
      getPrice (Json.obj fields) = .ok 0) ∧
    (∀ fields v, jGet fields "price".toList = some v → jFalsy v = true →
      getPrice (Json.obj fields) = .ok 0) ∧
    (∀ model key loads fields b1 b2 e,
      getPrice (dataOf (some (Json.obj fields))) = .error e →
      suggest model key loads (some (Json.obj fields)) b1 b2 = (.error e, 0)) ∧
    pyFloatOfString "abc".toList
      = .error ("could not convert string to float: abc".toList) := by
  refine ⟨?_, ?_, ?_, by decide⟩
  · intro fields h
    simp only [getPrice]
    rw [h]
    simp [jFalsy]
  · intro fields v h hf
    simp only [getPrice]
    rw [h]
    simp [hf]
  · intro model key loads fields b1 b2 e h
    unfold suggest
    simp only [h]

theorem C8_price_coercion_witness :
    getPrice (Json.obj []) = .ok 0 :=
  C8_price_coercion.1 [] rfl

/-- C9: every outcome of the handler — success, fallback, missing
credential and caught error alike — is delivered as the same response
shape, a single-key object mapping `"suggestion"` to a list of strings
with at least one element, every element non-empty; the failure kinds
differ only in the message text inside that list. -/
theorem C9_uniform_response_shape (model key : List Char)
    (loads : List Char → Option Json) (req : Option Json) (b1 b2 : PostBehavior) :
    ∃ l, suggestResponse ((suggest model key loads req b1 b2).1)
        = Json.obj [("suggestion".toList, Json.arr (l.map Json.str))] ∧
      l ≠ [] ∧ ∀ s ∈ l, s ≠ [] := by
  rcases suggest_outcomes model key loads req b1 b2 with ⟨l, hs, hne, hel⟩ | h | h | ⟨e, h⟩
  · rw [hs]
    exact ⟨l, rfl, hne, fun s hs2 => (hel s hs2).1⟩
  · rw [h]
    exact ⟨respList .missingKey, rfl, by decide, by decide⟩
  · rw [h]
    exact ⟨respList .fallback, rfl, by decide, by decide⟩
  · rw [h]
    refine ⟨respList (.error e), rfl, by simp [respList], ?_⟩
    intro s hs2
    simp only [respList, List.mem_singleton] at hs2
    subst hs2
    rw [Ne, List.append_eq_nil]
    rintro ⟨h1, -⟩
    revert h1
    decide

/-- C10: the retry payload is a constant function of the budget — for any
two budgets the whole attempt-2 request (prompt, system instruction,
output limit, creativity parameter) is identical, and in particular the
retry prompt never mentions the budget. -/
theorem C10_retry_payload_budget_independent (model : List Char) (p1 p2 : ℚ) :
    payload_retry model p1 = payload_retry model p2 := rfl

end RenderDemo
